import Mathlib

/-!
# The plugin loader of `plugin/plugin.go`

A shallow embedding of the Go package `plugin` (directory scan, per-file
isolated open-and-register, aggregation of the failures) and the properties
of its load pipeline.

Modelling conventions.

* Go strings are Lean `String`s; `%d` of a non-negative `int` is `toString`
  of a `Nat`; `+` on strings is `++`; `strings.Join` is `String.intercalate`.
* The world outside the package (the file system, the plugin opener held in
  the package variable `pluginOpener`, the registry behind `reg`) is a state
  of an arbitrary type `σ` that every external call may read and change.
* A call into foreign code either returns or panics (`Outcome`); a function
  of this package that has no `recover` lets a panic of its callee through.
* The `Error()` method of an error value returns its text (it does not
  itself panic).
-/

set_option linter.dupNamespace false

namespace plugin

/-- An `os.FileInfo` as far as `scan` looks at it: the methods `Name()` and
`IsDir()`. -/
structure FileInfo where
  Name : String
  IsDir : Bool

/-- A non-nil value of the Go interface `error`. `foreign` is an error value
of a type defined outside this package (told apart by `tag`, with the text
its `Error()` method returns), `errorString` is what `fmt.Errorf` builds from
a format without `%w`, and `loaderError` is the struct of this package. The
nil error is `none : Option Error`. -/
inductive Error where
  | foreign (tag : Nat) (msg : String)
  | errorString (s : String)
  | loaderError (errors : List Error)

/-- A value handed to `panic`, as `recover()` hands it back (an
`interface{}`): `nil` is `panic(nil)`, for which `recover()` returns nil in
the Go versions this code was written for (before Go 1.21, and later
toolchains for a module that declares no newer language version); `error`
is a value that implements `error`; `value` is any other value, given by its
`%v` text. -/
inductive PanicValue where
  | nil
  | error (e : Error)
  | value (text : String)

/-- How a call ends: it returns a value, or it panics with a panic value. -/
inductive Outcome (α : Type) where
  | returned (a : α)
  | panicked (r : PanicValue)

/-- The configuration interface `PluginDefinition`: `GetFolder()` and
`GetPattern()`. -/
structure PluginDefinition where
  GetFolder : String
  GetPattern : String

/-- What the package calls outside itself, over a world state `σ` and a type
`P` of plugin handles: `ioutil.ReadDir` and the function held in the package
variable `pluginOpener`. -/
structure Host (σ P : Type) where
  ReadDir : String → σ → (List FileInfo × Option Error) × σ
  pluginOpener : String → σ → Outcome (P × Option Error) × σ

/-- The method `Register` of the registry `reg`: it takes a plugin handle and
returns an error or nil, or panics. -/
abbrev Register (σ P : Type) : Type := P → σ → Outcome (Option Error) × σ

end plugin

/-- Go's `strings.Contains(s, substr)`: `substr` occurs in `s` as a contiguous
run. -/
def strings.Contains (s substr : String) : Bool :=
  decide (substr.data <:+: s.data)

/-- Go's `fmt.Errorf(format, ...)` for a format without `%w`, applied to the
already formatted text. -/
def fmt.Errorf (text : String) : plugin.Error :=
  plugin.Error.errorString text

mutual
/-- The method `Error()` of an error value; for `loaderError` it is the
method of lines 95-101: the header with the number of messages, then the
messages joined by newlines. -/
def plugin.Error.Error : plugin.Error → String
  | .foreign _ msg => msg
  | .errorString s => s
  | .loaderError errors =>
    let msgs := plugin.loaderError.fill errors 0 (List.replicate errors.length "")
    "plugin loader found " ++ toString msgs.length ++ " error(s): \n" ++ "\n".intercalate msgs
/-- The loop `for i, err := range l.errors { msgs[i] = err.Error() }`,
from index `i` on. -/
def plugin.loaderError.fill : List plugin.Error → Nat → List String → List String
  | [], _, msgs => msgs
  | err :: rest, i, msgs => plugin.loaderError.fill rest (i + 1) (msgs.set i err.Error)
end

namespace plugin

/-- The loop of `scan` over the directory entries, `plugins` being the slice
built so far. -/
def scan.loop (folder pattern : String) : List FileInfo → List String → List String
  | [], plugins => plugins
  | file :: rest, plugins =>
    if !file.IsDir && strings.Contains file.Name pattern then
      scan.loop folder pattern rest (plugins ++ [folder ++ file.Name])
    else
      scan.loop folder pattern rest plugins

/-- The function `scan(folder, pattern)`. -/
def scan {σ P : Type} (host : Host σ P) (folder pattern : String) (s : σ) :
    (List String × Option Error) × σ :=
  match host.ReadDir folder s with
  | ((_, some err), s1) => (([], some err), s1)
  | ((files, none), s1) => ((scan.loop folder pattern files [], none), s1)

/-- The deferred closure of `open`: `err` is the named result when the body
stopped and `panicking` the panic in flight, if any. `recover()` stops the
panic and returns its value (nil when there is none); a non-nil value that is
an error becomes the result, any other non-nil value is turned into an error
by `fmt.Errorf("%v", r)`. -/
def open.deferred (err : Option Error) (panicking : Option PanicValue) :
    Outcome (Option Error) :=
  let r : PanicValue := match panicking with
    | none => PanicValue.nil
    | some v => v
  match r with
  | .nil => .returned err
  | .error e => .returned (some e)
  | .value text => .returned (some (fmt.Errorf text))

/-- The body of `open` below the `defer`: the named result `err` when the
body stops, and the panic that stopped it, if any. -/
def open.body {σ P : Type} (host : Host σ P) (pluginName : String) (reg : Register σ P)
    (s : σ) : (Option Error × Option PanicValue) × σ :=
  match host.pluginOpener pluginName s with
  | (.panicked r, s1) => ((none, some r), s1)
  | (.returned (_, some err), s1) => ((some err, none), s1)
  | (.returned (p, none), s1) =>
    match reg p s1 with
    | (.panicked r, s2) => ((none, some r), s2)
    | (.returned err, s2) => ((err, none), s2)

end plugin

/-- The function `open(pluginName, reg)`: the body, then the deferred
closure. -/
def plugin.open {σ P : Type} (host : plugin.Host σ P) (pluginName : String)
    (reg : plugin.Register σ P) (s : σ) : plugin.Outcome (Option plugin.Error) × σ :=
  match plugin.open.body host pluginName reg s with
  | ((err, panicking), s1) => (plugin.open.deferred err panicking, s1)

namespace plugin

/-- The text `fmt.Errorf("opening plugin %d (%s): %s", k, pluginName, msg)`
formats. -/
def load.message (k : Nat) (pluginName msg : String) : String :=
  "opening plugin " ++ toString k ++ " (" ++ pluginName ++ "): " ++ msg

/-- The loop of `load` from index `k` on, with the slice `errors` and the
counter `loadedPlugins` as they stand. -/
def load.loop {σ P : Type} (host : Host σ P) (reg : Register σ P) :
    List String → Nat → List Error → Nat → σ → Outcome (List Error × Nat) × σ
  | [], _, errors, loadedPlugins, s => (.returned (errors, loadedPlugins), s)
  | pluginName :: rest, k, errors, loadedPlugins, s =>
    match plugin.open host pluginName reg s with
    | (.panicked r, s1) => (.panicked r, s1)
    | (.returned (some err), s1) =>
      load.loop host reg rest (k + 1)
        (errors ++ [fmt.Errorf (load.message k pluginName err.Error)]) loadedPlugins s1
    | (.returned none, s1) =>
      load.loop host reg rest (k + 1) errors (loadedPlugins + 1) s1

/-- The function `load(plugins, reg)`. -/
def load {σ P : Type} (host : Host σ P) (plugins : List String) (reg : Register σ P)
    (s : σ) : Outcome (Nat × Option Error) × σ :=
  match load.loop host reg plugins 0 [] 0 s with
  | (.panicked r, s1) => (.panicked r, s1)
  | (.returned (errors, loadedPlugins), s1) =>
    if errors.length > 0 then
      (.returned (loadedPlugins, some (Error.loaderError errors)), s1)
    else
      (.returned (loadedPlugins, none), s1)

/-- The function `Load(cfg, reg)`. -/
def Load {σ P : Type} (host : Host σ P) (cfg : PluginDefinition) (reg : Register σ P)
    (s : σ) : Outcome (Nat × Option Error) × σ :=
  match scan host cfg.GetFolder cfg.GetPattern s with
  | ((_, some err), s1) => (.returned (0, some err), s1)
  | ((plugins, none), s1) => load host plugins reg s1

end plugin

/-! ## The call log

To speak about which foreign calls a run makes, the host and the registry are
wrapped so that every call of `pluginOpener` and of `Register` is appended to
a log kept beside the world state. The wrapped calls behave as the original
ones; the code of the package is run unchanged on the wrapped host. -/

namespace plugin

/-- A logged foreign call: `pluginOpener(pluginName)` or `reg.Register(p)`. -/
inductive Event (P : Type) where
  | opener (pluginName : String)
  | register (p : P)

/-- The host that logs every call of `pluginOpener`. -/
def Host.traced {σ P : Type} (host : Host σ P) : Host (σ × List (Event P)) P where
  ReadDir := fun folder st => ((host.ReadDir folder st.1).1, ((host.ReadDir folder st.1).2, st.2))
  pluginOpener := fun pluginName st =>
    ((host.pluginOpener pluginName st.1).1,
      ((host.pluginOpener pluginName st.1).2, st.2 ++ [Event.opener pluginName]))

/-- The registry that logs every call of `Register`. -/
def Register.traced {σ P : Type} (reg : Register σ P) : Register (σ × List (Event P)) P :=
  fun p st => ((reg p st.1).1, ((reg p st.1).2, st.2 ++ [Event.register p]))

/-- The paths of the logged `pluginOpener` calls, in call order. -/
def openerCalls {P : Type} : List (Event P) → List String
  | [] => []
  | .opener pluginName :: rest => pluginName :: openerCalls rest
  | .register _ :: rest => openerCalls rest

/-- The handles of the logged `Register` calls, in call order. -/
def registerCalls {P : Type} : List (Event P) → List P
  | [] => []
  | .opener _ :: rest => registerCalls rest
  | .register p :: rest => p :: registerCalls rest

/-- The outcome of `open` on each candidate in turn, the world state being
passed from one call to the next. -/
def attempts {σ P : Type} (host : Host σ P) (reg : Register σ P) :
    List String → σ → List (Outcome (Option Error))
  | [], _ => []
  | pluginName :: rest, s =>
    (plugin.open host pluginName reg s).1 :: attempts host reg rest (plugin.open host pluginName reg s).2

/-- The call returned a nil error. -/
def Outcome.succeeded : Outcome (Option Error) → Bool
  | .returned none => true
  | _ => false

/-- The call returned a non-nil error. -/
def Outcome.failed : Outcome (Option Error) → Bool
  | .returned (some _) => true
  | _ => false

/-- The calls `open` makes on one candidate: the opener, and the registry when
the opener returned a handle and a nil error. -/
def open.events {σ P : Type} (host : Host σ P) (pluginName : String) (s : σ) :
    List (Event P) :=
  match host.pluginOpener pluginName s with
  | (.returned (p, none), _) => [Event.opener pluginName, Event.register p]
  | _ => [Event.opener pluginName]

/-- The calls a run of `load` over the candidates makes, from state `s`. -/
def load.events {σ P : Type} (host : Host σ P) (reg : Register σ P) :
    List String → σ → List (Event P)
  | [], _ => []
  | pluginName :: rest, s =>
    open.events host pluginName s ++ load.events host reg rest (plugin.open host pluginName reg s).2

/-- The world state after `open` has run on each candidate in turn. -/
def finalState {σ P : Type} (host : Host σ P) (reg : Register σ P) : List String → σ → σ
  | [], s => s
  | pluginName :: rest, s => finalState host reg rest (plugin.open host pluginName reg s).2

/-- The failure descriptors of a batch: for each candidate, at its position
`k` in the list, on which `open` returned a non-nil error, the error
`opening plugin k (path): cause`. -/
def failureEntries {σ P : Type} (host : Host σ P) (reg : Register σ P) :
    List String → Nat → σ → List Error
  | [], _, _ => []
  | pluginName :: rest, k, s =>
    match (plugin.open host pluginName reg s).1 with
    | .returned (some err) =>
      fmt.Errorf (load.message k pluginName err.Error) ::
        failureEntries host reg rest (k + 1) (plugin.open host pluginName reg s).2
    | _ => failureEntries host reg rest (k + 1) (plugin.open host pluginName reg s).2

/-- The failure descriptor of the candidate at position `k` of the list, with
path `pluginName`, whose `open` ended as `o`: an entry when `open` returned a
non-nil error, none otherwise. -/
def failureAt (k : Nat) (pluginName : String) (o : Outcome (Option Error)) : Option Error :=
  match o with
  | .returned (some err) => some (fmt.Errorf (load.message k pluginName err.Error))
  | _ => none

/-- The outcome of the `pluginOpener` call made for each candidate in turn
during a batch, the world state being passed on as `open` leaves it. -/
def openerOutcomes {σ P : Type} (host : Host σ P) (reg : Register σ P) :
    List String → σ → List (Outcome (P × Option Error))
  | [], _ => []
  | pluginName :: rest, s =>
    (host.pluginOpener pluginName s).1 ::
      openerOutcomes host reg rest (plugin.open host pluginName reg s).2

/-- The handle of an opener call that returned a handle and a nil error; none
for a call that returned an error or panicked. -/
def openedHandle {P : Type} : Outcome (P × Option Error) → Option P
  | .returned (p, none) => some p
  | _ => none

/-- The lines of a text given as characters: the runs between newline
characters (a text without a newline is one line). -/
def splitLines : List Char → List (List Char)
  | [] => [[]]
  | c :: cs =>
    if c = '\n' then [] :: splitLines cs
    else match splitLines cs with
      | [] => [[c]]
      | line :: rest => (c :: line) :: rest

/-- The lines of a message. -/
def lines (msg : String) : List String :=
  (splitLines msg.data).map String.mk

/-- The text has no newline character. -/
def oneLine (text : String) : Prop :=
  '\n' ∉ text.data

instance : DecidablePred oneLine :=
  fun text => inferInstanceAs (Decidable ('\n' ∉ text.data))

/-- Reading a decimal numeral off the front of a text: the digits up to the
first character that is not one, on top of the value `acc` read so far. -/
def parseDecimal : List Char → Nat → Nat
  | [], acc => acc
  | c :: cs, acc => if c.isDigit then parseDecimal cs (acc * 10 + (c.toNat - 48)) else acc

/-- The count a message of the form `plugin loader found <n> error(s): ...`
states: the numeral that follows the words `plugin loader found `. -/
def statedCount (msg : String) : Nat :=
  parseDecimal (msg.data.drop "plugin loader found ".length) 0

/-! ### Sample hosts -/

/-- A sample host over the trivial world. The folder `plugins/` lists the
files `a_plugin.so` and `b_other.txt` and the directory `sub`; every other
folder cannot be read. The opener returns an error for `bad.so`, panics with a
nil value for `nilpanic.so`, with an error value for `fault.so` and with a
string for `crash.so`, returns the handle `0` for `odd.so` and the handle `7`
for every other path. -/
def sampleHost : Host Unit Nat where
  ReadDir := fun folder s =>
    if folder = "plugins/" then
      (([⟨"a_plugin.so", false⟩, ⟨"b_other.txt", false⟩, ⟨"sub", true⟩], none), s)
    else (([], some (Error.foreign 0 "open: no such file or directory")), s)
  pluginOpener := fun pluginName s =>
    if pluginName = "bad.so" then (.returned (0, some (Error.foreign 1 "not a plugin")), s)
    else if pluginName = "nilpanic.so" then (.panicked PanicValue.nil, s)
    else if pluginName = "fault.so" then
      (.panicked (PanicValue.error (Error.foreign 2 "invalid memory address")), s)
    else if pluginName = "crash.so" then (.panicked (PanicValue.value "boom"), s)
    else if pluginName = "odd.so" then (.returned (0, none), s)
    else (.returned (7, none), s)

/-- A sample registry: it rejects the handle `0` and accepts every other
one. -/
def sampleRegister : Register Unit Nat :=
  fun p s => if p = 0 then (.returned (some (Error.foreign 3 "rejected")), s)
    else (.returned none, s)

/-- A sample host whose opener returns, for every path, an error with a
message of two lines. -/
def twoLineHost : Host Unit Nat where
  ReadDir := fun _ s => (([], none), s)
  pluginOpener := fun _ s =>
    (.returned (0, some (Error.foreign 4 "cannot open\nno such file")), s)

end plugin

/-! ## Lemmas on `open` -/

theorem plugin.open_deferred_returns (err : Option plugin.Error)
    (panicking : Option plugin.PanicValue) :
    ∃ e, plugin.open.deferred err panicking = .returned e := by
  unfold plugin.open.deferred
  rcases panicking with _ | (_ | _ | _) <;> simp

theorem plugin.open_returns {σ P : Type} (host : plugin.Host σ P) (pluginName : String)
    (reg : plugin.Register σ P) (s : σ) :
    ∃ e, (plugin.open host pluginName reg s).1 = .returned e := by
  unfold plugin.open
  exact plugin.open_deferred_returns _ _

theorem plugin.open_cases {σ P : Type} (host : plugin.Host σ P) (pluginName : String)
    (reg : plugin.Register σ P) (s : σ) :
    (∃ e s1, plugin.open host pluginName reg s = (.returned (some e), s1)) ∨
    (∃ s1, plugin.open host pluginName reg s = (.returned none, s1)) := by
  obtain ⟨e, he⟩ := plugin.open_returns host pluginName reg s
  rcases e with _ | e
  · exact Or.inr ⟨_, Prod.ext he rfl⟩
  · exact Or.inl ⟨e, _, Prod.ext he rfl⟩

namespace plugin

theorem attempts_length {σ P : Type} (host : Host σ P) (reg : Register σ P)
    (plugins : List String) :
    ∀ s : σ, (attempts host reg plugins s).length = plugins.length := by
  induction plugins with
  | nil => intro s; rfl
  | cons pluginName rest ih => intro s; simp [attempts, ih]

theorem attempts_count {σ P : Type} (host : Host σ P) (reg : Register σ P)
    (plugins : List String) :
    ∀ s : σ, (attempts host reg plugins s).countP Outcome.succeeded +
      (attempts host reg plugins s).countP Outcome.failed = plugins.length := by
  induction plugins with
  | nil => intro s; rfl
  | cons pluginName rest ih =>
    intro s
    have h := ih (plugin.open host pluginName reg s).2
    obtain ⟨e, he⟩ := plugin.open_returns host pluginName reg s
    rcases e with _ | e <;>
      simp [attempts, he, List.countP_cons, Outcome.succeeded, Outcome.failed] <;> omega

theorem failureEntries_length {σ P : Type} (host : Host σ P) (reg : Register σ P)
    (plugins : List String) :
    ∀ (k : Nat) (s : σ), (failureEntries host reg plugins k s).length =
      (attempts host reg plugins s).countP Outcome.failed := by
  induction plugins with
  | nil => intro k s; rfl
  | cons pluginName rest ih =>
    intro k s
    have h := ih (k + 1) (plugin.open host pluginName reg s).2
    obtain ⟨e, he⟩ := plugin.open_returns host pluginName reg s
    rcases e with _ | e <;>
      simp [attempts, failureEntries, he, List.countP_cons, Outcome.failed, h]

/-- The loop of `load` returns; it appends the failure descriptors of the
batch to `errors`, adds the number of nil-error opens to the counter, and
leaves the world as the opens left it. -/
theorem load_loop_eq {σ P : Type} (host : Host σ P) (reg : Register σ P)
    (plugins : List String) :
    ∀ (k : Nat) (errors : List Error) (loadedPlugins : Nat) (s : σ),
      load.loop host reg plugins k errors loadedPlugins s =
        (.returned (errors ++ failureEntries host reg plugins k s,
          loadedPlugins + (attempts host reg plugins s).countP Outcome.succeeded),
         finalState host reg plugins s) := by
  induction plugins with
  | nil => intro k errors loadedPlugins s; simp [load.loop, failureEntries, attempts, finalState]
  | cons pluginName rest ih =>
    intro k errors loadedPlugins s
    rcases plugin.open_cases host pluginName reg s with ⟨e, s1, h⟩ | ⟨s1, h⟩
    · simp [load.loop, failureEntries, attempts, finalState, h, ih, List.countP_cons,
        Outcome.succeeded]
    · simp [load.loop, failureEntries, attempts, finalState, h, ih, List.countP_cons,
        Outcome.succeeded]
      omega

/-- The value `load` returns, in terms of the failure descriptors of the
batch. -/
theorem load_eq {σ P : Type} (host : Host σ P) (plugins : List String)
    (reg : Register σ P) (s : σ) :
    load host plugins reg s =
      (.returned ((attempts host reg plugins s).countP Outcome.succeeded,
        if (failureEntries host reg plugins 0 s).length > 0
        then some (Error.loaderError (failureEntries host reg plugins 0 s)) else none),
       finalState host reg plugins s) := by
  simp only [load, load_loop_eq, List.nil_append, Nat.zero_add]
  split <;> rfl

/-- C1. For every candidate list and every behaviour of the opener and of the
registry (a returned handle, a returned error or a panic, in any mix and
depending on the world state in any way), `load` returns: its loop ends with a
counter `loadedCount` and a slice `failures` with
`loadedCount + len(failures) = len(candidates)`, and `load` returns that
counter, with the aggregate of `failures` when there is one. -/
theorem load_count_plus_failures {σ P : Type} (host : Host σ P) (plugins : List String)
    (reg : Register σ P) (s : σ) :
    ∃ loadedCount failures s1,
      load.loop host reg plugins 0 [] 0 s = (.returned (failures, loadedCount), s1) ∧
      load host plugins reg s =
        (.returned (loadedCount,
          if failures.length > 0 then some (Error.loaderError failures) else none), s1) ∧
      loadedCount + failures.length = plugins.length := by
  refine ⟨_, _, _, load_loop_eq host reg plugins 0 [] 0 s, ?_, ?_⟩
  · simpa using load_eq host plugins reg s
  · have h1 := attempts_count host reg plugins s
    have h2 := failureEntries_length host reg plugins 0 s
    simp only [List.nil_append, Nat.zero_add]
    omega

end plugin

/-! ## The calls of a batch -/

namespace plugin

theorem open_traced {σ P : Type} (host : Host σ P) (pluginName : String)
    (reg : Register σ P) (s : σ) (log : List (Event P)) :
    plugin.open host.traced pluginName reg.traced (s, log) =
      ((plugin.open host pluginName reg s).1,
        ((plugin.open host pluginName reg s).2, log ++ open.events host pluginName s)) := by
  unfold plugin.open open.body open.events Host.traced Register.traced
  rcases h : host.pluginOpener pluginName s with ⟨(⟨p, _ | e⟩ | r), s1⟩
  · rcases h2 : reg p s1 with ⟨(e2 | r2), s2⟩ <;> simp [h, h2]
  · simp [h]
  · simp [h]

theorem load_loop_traced {σ P : Type} (host : Host σ P) (reg : Register σ P)
    (plugins : List String) :
    ∀ (k : Nat) (errors : List Error) (loadedPlugins : Nat) (s : σ) (log : List (Event P)),
      load.loop host.traced reg.traced plugins k errors loadedPlugins (s, log) =
        ((load.loop host reg plugins k errors loadedPlugins s).1,
          ((load.loop host reg plugins k errors loadedPlugins s).2,
            log ++ load.events host reg plugins s)) := by
  induction plugins with
  | nil => intro k errors loadedPlugins s log; simp [load.loop, load.events]
  | cons pluginName rest ih =>
    intro k errors loadedPlugins s log
    rcases plugin.open_cases host pluginName reg s with ⟨e, s1, h⟩ | ⟨s1, h⟩ <;>
      simp [load.loop, load.events, open_traced, h, ih]

theorem load_traced {σ P : Type} (host : Host σ P) (plugins : List String)
    (reg : Register σ P) (s : σ) (log : List (Event P)) :
    load host.traced plugins reg.traced (s, log) =
      ((load host plugins reg s).1,
        ((load host plugins reg s).2, log ++ load.events host reg plugins s)) := by
  unfold load
  rw [load_loop_traced, load_loop_eq]
  dsimp only
  split <;> rfl

theorem openerCalls_append {P : Type} (a b : List (Event P)) :
    openerCalls (a ++ b) = openerCalls a ++ openerCalls b := by
  induction a with
  | nil => rfl
  | cons e rest ih => cases e <;> simp [openerCalls, ih]

theorem openerCalls_open {σ P : Type} (host : Host σ P) (pluginName : String) (s : σ) :
    openerCalls (open.events host pluginName s) = [pluginName] := by
  unfold open.events
  split <;> rfl

theorem openerCalls_load {σ P : Type} (host : Host σ P) (reg : Register σ P)
    (plugins : List String) :
    ∀ s : σ, openerCalls (load.events host reg plugins s) = plugins := by
  induction plugins with
  | nil => intro s; rfl
  | cons pluginName rest ih =>
    intro s
    simp [load.events, openerCalls_append, openerCalls_open, ih]

/-- C2. `load` never short-circuits. Run on the logging host from an empty
log, `load` returns what it returns on the plain host and the logged opener
calls are exactly the candidate list: one isolated open per candidate, in list
order, whatever the earlier candidates did. `load` returns, and its count is
the number of candidates whose `open` returned a nil error; so when exactly
one of the `N` opens returned an error, the count is `N - 1`. -/
theorem load_never_short_circuits {σ P : Type} (host : Host σ P) (plugins : List String)
    (reg : Register σ P) (s : σ) :
    (load host.traced plugins reg.traced (s, [])).1 = (load host plugins reg s).1 ∧
    openerCalls (load host.traced plugins reg.traced (s, [])).2.2 = plugins ∧
    (attempts host reg plugins s).length = plugins.length ∧
    (∃ err, (load host plugins reg s).1 =
      .returned ((attempts host reg plugins s).countP Outcome.succeeded, err)) ∧
    ((attempts host reg plugins s).countP Outcome.failed = 1 →
      ∃ err, (load host plugins reg s).1 = .returned (plugins.length - 1, some err)) := by
  refine ⟨?_, ?_, attempts_length host reg plugins s, ?_, ?_⟩
  · rw [load_traced]
  · rw [load_traced]; simp [openerCalls_load]
  · rw [load_eq]; exact ⟨_, rfl⟩
  · intro h1
    have h2 := attempts_count host reg plugins s
    have h3 := failureEntries_length host reg plugins 0 s
    rw [load_eq]
    refine ⟨Error.loaderError (failureEntries host reg plugins 0 s), ?_⟩
    have h4 : (attempts host reg plugins s).countP Outcome.succeeded = plugins.length - 1 := by
      omega
    have h5 : (failureEntries host reg plugins 0 s).length > 0 := by omega
    simp [h4, h5]

end plugin

namespace plugin

theorem load_never_short_circuits_witness :
    (attempts sampleHost sampleRegister ["a.so", "bad.so", "c.so"] ()).countP Outcome.failed = 1 ∧
    ∃ err, (load sampleHost ["a.so", "bad.so", "c.so"] sampleRegister ()).1 =
      .returned (2, some err) :=
  ⟨by rfl, (load_never_short_circuits sampleHost ["a.so", "bad.so", "c.so"] sampleRegister
    ()).2.2.2.2 (by rfl)⟩

/-- A panic with a non-nil value, raised by the opener or by `Register`, does
not leave `open`: `open` returns a non-nil error. -/
theorem open_fault_returns_error {σ P : Type} (host : Host σ P) (pluginName : String)
    (reg : Register σ P) (s s1 : σ) (r : PanicValue) (hr : r ≠ PanicValue.nil)
    (hpanic : host.pluginOpener pluginName s = (.panicked r, s1) ∨
      ∃ p s0, host.pluginOpener pluginName s = (.returned (p, none), s0) ∧
        reg p s0 = (.panicked r, s1)) :
    ∃ e, plugin.open host pluginName reg s = (.returned (some e), s1) := by
  have hbody : open.body host pluginName reg s = ((none, some r), s1) := by
    rcases hpanic with h | ⟨p, s0, h, h0⟩
    · simp [open.body, h]
    · simp [open.body, h, h0]
  cases r with
  | nil => exact absurd rfl hr
  | error e => exact ⟨e, by simp [plugin.open, hbody, open.deferred]⟩
  | value text => exact ⟨fmt.Errorf text, by simp [plugin.open, hbody, open.deferred]⟩

/-- C3, at the input that breaks it. An opener that panics with a nil value
(`panic(nil)`): `recover()` returns nil, the deferred closure leaves the nil
`err` as it is, and `open` returns a nil error; `load` counts the candidate as
loaded and reports no failure. The same happens when the registry panics with
a nil value after a successful open. -/
theorem open_nil_panic_returns_nil :
    plugin.open sampleHost "nilpanic.so" sampleRegister () = (.returned none, ()) ∧
    load sampleHost ["nilpanic.so"] sampleRegister () = (.returned (1, none), ()) ∧
    plugin.open sampleHost "a.so" (fun _ s => (.panicked PanicValue.nil, s)) () =
      (.returned none, ()) ∧
    load sampleHost ["a.so"] (fun _ s => (.panicked PanicValue.nil, s)) () =
      (.returned (1, none), ()) :=
  ⟨rfl, rfl, rfl, rfl⟩

theorem scan_keep_eq (file : FileInfo) (pattern : String) :
    (!file.IsDir && strings.Contains file.Name pattern) =
      decide (file.IsDir = false ∧ pattern.data <:+: file.Name.data) := by
  cases h : file.IsDir <;> simp [strings.Contains]

theorem scan_loop_eq (folder pattern : String) (files : List FileInfo) :
    ∀ plugins : List String, scan.loop folder pattern files plugins =
      plugins ++ (files.filter
        (fun file => decide (file.IsDir = false ∧ pattern.data <:+: file.Name.data))).map
        (fun file => folder ++ file.Name) := by
  induction files with
  | nil => intro plugins; simp [scan.loop]
  | cons file rest ih =>
    intro plugins
    simp only [scan.loop, scan_keep_eq, List.filter_cons, ih]
    split <;> simp

/-- C4. When the directory listing succeeds with entries `files`, `scan`
returns a nil error and exactly the entries that are not directories and
whose name has `pattern` as a contiguous run of characters, in listing order,
each as `folder ++ name`: nothing added, dropped, reordered, deduplicated or
normalised. -/
theorem scan_eq_filter_map {σ P : Type} (host : Host σ P) (folder pattern : String)
    (s s1 : σ) (files : List FileInfo)
    (hread : host.ReadDir folder s = ((files, none), s1)) :
    scan host folder pattern s =
      (((files.filter
          (fun file => decide (file.IsDir = false ∧ pattern.data <:+: file.Name.data))).map
          (fun file => folder ++ file.Name), none), s1) ∧
    (files = [⟨"a_plugin.so", false⟩, ⟨"b_other.txt", false⟩, ⟨"sub", true⟩] →
      pattern = "plugin" →
      scan host folder pattern s = (([folder ++ "a_plugin.so"], none), s1)) := by
  refine ⟨by simp [scan, hread, scan_loop_eq], ?_⟩
  intro hfiles hpattern
  subst hfiles hpattern
  have h1 : strings.Contains "a_plugin.so" "plugin" = true := by decide
  have h2 : strings.Contains "b_other.txt" "plugin" = false := by decide
  simp [scan, hread, scan.loop, h1, h2]

theorem scan_eq_filter_map_witness :
    sampleHost.ReadDir "plugins/" () =
      (([⟨"a_plugin.so", false⟩, ⟨"b_other.txt", false⟩, ⟨"sub", true⟩], none), ()) ∧
    scan sampleHost "plugins/" "plugin" () = ((["plugins/" ++ "a_plugin.so"], none), ()) :=
  ⟨rfl, (scan_eq_filter_map sampleHost "plugins/" "plugin" () ()
    [⟨"a_plugin.so", false⟩, ⟨"b_other.txt", false⟩, ⟨"sub", true⟩] rfl).2 rfl rfl⟩

end plugin

namespace plugin

theorem failureEntries_eq_nil_iff {σ P : Type} (host : Host σ P) (reg : Register σ P)
    (plugins : List String) (k : Nat) (s : σ) :
    failureEntries host reg plugins k s = [] ↔
      (attempts host reg plugins s).countP Outcome.failed = 0 := by
  rw [← failureEntries_length host reg plugins k s, List.length_eq_zero]

/-- C5. `load` returns a nil error exactly when its failures slice is empty,
that is when no `open` of the batch returned an error; when the slice is not
empty it returns the aggregate error built from it. So a batch in which some
open returned nil and some open returned an error gives a positive count
together with a non-nil error. -/
theorem load_error_nil_iff_no_failure {σ P : Type} (host : Host σ P)
    (plugins : List String) (reg : Register σ P) (s : σ) :
    ∃ loadedCount failures err s1,
      load.loop host reg plugins 0 [] 0 s = (.returned (failures, loadedCount), s1) ∧
      load host plugins reg s = (.returned (loadedCount, err), s1) ∧
      (err = none ↔ failures = []) ∧
      (failures = [] ↔ (attempts host reg plugins s).countP Outcome.failed = 0) ∧
      (failures ≠ [] → err = some (Error.loaderError failures)) ∧
      (0 < (attempts host reg plugins s).countP Outcome.succeeded →
        0 < (attempts host reg plugins s).countP Outcome.failed →
        0 < loadedCount ∧ err ≠ none) := by
  have hnil := failureEntries_eq_nil_iff host reg plugins 0 s
  refine ⟨(attempts host reg plugins s).countP Outcome.succeeded,
    failureEntries host reg plugins 0 s,
    if (failureEntries host reg plugins 0 s).length > 0
      then some (Error.loaderError (failureEntries host reg plugins 0 s)) else none,
    finalState host reg plugins s, ?_, load_eq host plugins reg s, ?_, hnil, ?_, ?_⟩
  · simpa using load_loop_eq host reg plugins 0 [] 0 s
  · by_cases h : failureEntries host reg plugins 0 s = [] <;> simp [h, List.length_pos]
  · intro h
    have h1 : 0 < (failureEntries host reg plugins 0 s).length := by
      simpa [List.length_pos] using h
    simp [h1]
  · intro h1 h2
    have hlen := failureEntries_length host reg plugins 0 s
    have h3 : 0 < (failureEntries host reg plugins 0 s).length := by omega
    exact ⟨h1, by simp [h3]⟩

theorem load_error_nil_iff_no_failure_witness :
    0 < (attempts sampleHost sampleRegister ["a.so", "bad.so"] ()).countP Outcome.succeeded ∧
    0 < (attempts sampleHost sampleRegister ["a.so", "bad.so"] ()).countP Outcome.failed ∧
    ∃ loadedCount err s1,
      load sampleHost ["a.so", "bad.so"] sampleRegister () = (.returned (loadedCount, err), s1) ∧
      0 < loadedCount ∧ err ≠ none := by
  obtain ⟨loadedCount, failures, err, s1, _, h2, _, _, _, h6⟩ :=
    load_error_nil_iff_no_failure sampleHost ["a.so", "bad.so"] sampleRegister ()
  exact ⟨by decide, by decide, loadedCount, err, s1, h2, h6 (by decide) (by decide)⟩

theorem set_length_append_cons {α : Type} (pre : List α) (a x : α) (post : List α) :
    (pre ++ a :: post).set pre.length x = pre ++ x :: post := by
  induction pre with
  | nil => rfl
  | cons b rest ih => simp [List.set, ih]

/-- The loop that fills `msgs` writes the texts of the errors, in order, over
the slots from `i` on. -/
theorem loaderError_fill_eq (errors : List Error) :
    ∀ (pre post : List String),
      loaderError.fill errors pre.length (pre ++ List.replicate errors.length "" ++ post) =
        pre ++ errors.map Error.Error ++ post := by
  induction errors with
  | nil => intro pre post; simp [loaderError.fill]
  | cons err rest ih =>
    intro pre post
    have h := ih (pre ++ [err.Error]) post
    simp only [List.length_append, List.length_singleton, List.append_assoc,
      List.singleton_append] at h
    simp only [loaderError.fill, List.length_cons, List.replicate_succ, List.append_assoc,
      List.cons_append, set_length_append_cons, List.map_cons]
    exact h

/-- The text of a `loaderError`, with the loop over the slice unfolded. -/
theorem loaderError_message_eq (errors : List Error) :
    (Error.loaderError errors).Error =
      "plugin loader found " ++ toString errors.length ++ " error(s): \n" ++
        "\n".intercalate (errors.map Error.Error) := by
  have h := loaderError_fill_eq errors [] []
  simp only [List.length_nil, List.nil_append, List.append_nil] at h
  simp only [Error.Error, h, List.length_map]

/-- C6. The message of the aggregate error over the failures `e_0..e_{n-1}`
(for every sequence, the non-empty ones among them) is the header with `n` in
decimal, then the message of each failure in the order of the slice, joined by
newlines. -/
theorem loaderError_Error_eq (errors : List Error) :
    (Error.loaderError errors).Error =
      "plugin loader found " ++ toString errors.length ++ " error(s): \n" ++
        "\n".intercalate (errors.map Error.Error) :=
  loaderError_message_eq errors

/-- C7. When the listing of the configured folder fails with `err`, `scan`
returns the empty slice with `err`, `Load` returns `(0, err)` with that same
error value, and on the logging host the log stays empty: neither the opener
nor the registry is called. -/
theorem Load_unreadable_folder {σ P : Type} (host : Host σ P) (cfg : PluginDefinition)
    (reg : Register σ P) (s s1 : σ) (files : List FileInfo) (err : Error)
    (hread : host.ReadDir cfg.GetFolder s = ((files, some err), s1)) :
    scan host cfg.GetFolder cfg.GetPattern s = (([], some err), s1) ∧
    Load host cfg reg s = (.returned (0, some err), s1) ∧
    Load host.traced cfg reg.traced (s, []) = (.returned (0, some err), (s1, [])) := by
  have h1 : scan host cfg.GetFolder cfg.GetPattern s = (([], some err), s1) := by
    simp [scan, hread]
  have h2 : scan host.traced cfg.GetFolder cfg.GetPattern (s, ([] : List (Event P))) =
      (([], some err), (s1, [])) := by
    simp [scan, Host.traced, hread]
  exact ⟨h1, by simp [Load, h1], by simp [Load, h2]⟩

theorem Load_unreadable_folder_witness :
    sampleHost.ReadDir "missing/" () =
      (([], some (Error.foreign 0 "open: no such file or directory")), ()) ∧
    Load sampleHost ⟨"missing/", "plugin"⟩ sampleRegister () =
      (.returned (0, some (Error.foreign 0 "open: no such file or directory")), ()) :=
  ⟨rfl, (Load_unreadable_folder sampleHost ⟨"missing/", "plugin"⟩ sampleRegister () () []
    (Error.foreign 0 "open: no such file or directory") rfl).2.1⟩

end plugin

namespace plugin

theorem open_of_opener_error {σ P : Type} (host : Host σ P) (pluginName : String)
    (reg : Register σ P) (s s1 : σ) (p : P) (e : Error)
    (hopen : host.pluginOpener pluginName s = (.returned (p, some e), s1)) :
    plugin.open host pluginName reg s = (.returned (some e), s1) := by
  simp [plugin.open, open.body, open.deferred, hopen]

theorem open_of_register_error {σ P : Type} (host : Host σ P) (pluginName : String)
    (reg : Register σ P) (s s1 s2 : σ) (p : P) (e : Error)
    (hopen : host.pluginOpener pluginName s = (.returned (p, none), s1))
    (hreg : reg p s1 = (.returned (some e), s2)) :
    plugin.open host pluginName reg s = (.returned (some e), s2) := by
  simp [plugin.open, open.body, open.deferred, hopen, hreg]

/-- C8. When the opener returns a handle and a nil error and `Register`
returns the error `e`, `open` returns `e` itself, and the loop of `load` goes
on with the counter unchanged and the entry `opening plugin k (path): e`
appended to the failures; this is, step for step, what it does for any host on
which the opener itself returns the error `e` for that candidate. -/
theorem register_error_handled_as_open_error {σ P : Type} (host : Host σ P)
    (reg : Register σ P) (pluginName : String) (rest : List String) (k : Nat)
    (errors : List Error) (loadedPlugins : Nat) (s s1 s2 : σ) (p : P) (e : Error)
    (hopen : host.pluginOpener pluginName s = (.returned (p, none), s1))
    (hreg : reg p s1 = (.returned (some e), s2)) :
    plugin.open host pluginName reg s = (.returned (some e), s2) ∧
    load.loop host reg (pluginName :: rest) k errors loadedPlugins s =
      load.loop host reg rest (k + 1)
        (errors ++ [fmt.Errorf (load.message k pluginName e.Error)]) loadedPlugins s2 ∧
    (∀ (host2 : Host σ P) (reg2 : Register σ P) (t t1 : σ) (q : P),
      host2.pluginOpener pluginName t = (.returned (q, some e), t1) →
      plugin.open host2 pluginName reg2 t = (.returned (some e), t1) ∧
      load.loop host2 reg2 (pluginName :: rest) k errors loadedPlugins t =
        load.loop host2 reg2 rest (k + 1)
          (errors ++ [fmt.Errorf (load.message k pluginName e.Error)]) loadedPlugins t1) := by
  have h1 := open_of_register_error host pluginName reg s s1 s2 p e hopen hreg
  refine ⟨h1, by simp [load.loop, h1], ?_⟩
  intro host2 reg2 t t1 q hq
  have h2 := open_of_opener_error host2 pluginName reg2 t t1 q e hq
  exact ⟨h2, by simp [load.loop, h2]⟩

theorem register_error_handled_as_open_error_witness :
    sampleHost.pluginOpener "odd.so" () = (.returned (0, none), ()) ∧
    sampleRegister 0 () = (.returned (some (Error.foreign 3 "rejected")), ()) ∧
    plugin.open sampleHost "odd.so" sampleRegister () =
      (.returned (some (Error.foreign 3 "rejected")), ()) ∧
    load sampleHost ["odd.so"] sampleRegister () =
      (.returned (0, some (Error.loaderError
        [Error.errorString "opening plugin 0 (odd.so): rejected"])), ()) :=
  ⟨rfl, rfl,
    (register_error_handled_as_open_error sampleHost sampleRegister "odd.so" [] 0 [] 0 () () ()
      0 (Error.foreign 3 "rejected") rfl rfl).1, rfl⟩

theorem failureEntries_eq_filterMap {σ P : Type} (host : Host σ P) (reg : Register σ P)
    (plugins : List String) :
    ∀ (k : Nat) (s : σ), failureEntries host reg plugins k s =
      (List.zip (List.range' k plugins.length)
        (List.zip plugins (attempts host reg plugins s))).filterMap
        (fun x => failureAt x.1 x.2.1 x.2.2) := by
  induction plugins with
  | nil => intro k s; rfl
  | cons pluginName rest ih =>
    intro k s
    obtain ⟨e, he⟩ := plugin.open_returns host pluginName reg s
    rcases e with _ | e <;>
      simp [failureEntries, attempts, he, List.range'_succ, failureAt, ih]

/-- C9. The failures slice of `load` is, in list order, one entry for each
candidate whose `open` returned an error, built from the position `k` of that
candidate in the candidate list (from zero), its path and the cause; the
message of the entry is `opening plugin k (path): cause`. So for every three
candidates of which only the second fails to open, with cause `e`, `load`
returns the count 2 and an aggregate whose message states 1 error and then the
diagnostic of the second candidate with index 1. -/
theorem load_failure_entry_index {σ P : Type} (host : Host σ P) (reg : Register σ P)
    (s : σ) :
    (∀ plugins : List String, ∃ loadedCount s1,
      load.loop host reg plugins 0 [] 0 s =
        (.returned ((List.zip (List.range' 0 plugins.length)
          (List.zip plugins (attempts host reg plugins s))).filterMap
            (fun x => failureAt x.1 x.2.1 x.2.2), loadedCount), s1)) ∧
    (∀ (k : Nat) (path : String) (cause : Error),
      (failureAt k path (.returned (some cause))).map Error.Error =
        some ("opening plugin " ++ toString k ++ " (" ++ path ++ "): " ++ cause.Error)) ∧
    (∀ (a b c : String) (e : Error),
      attempts host reg [a, b, c] s = [.returned none, .returned (some e), .returned none] →
      ∃ aggregate s1, load host [a, b, c] reg s = (.returned (2, some aggregate), s1) ∧
        aggregate.Error =
          "plugin loader found 1 error(s): \n" ++ ("opening plugin 1 (" ++ b ++ "): " ++ e.Error)) := by
  refine ⟨?_, ?_, ?_⟩
  · intro plugins
    refine ⟨0 + (attempts host reg plugins s).countP Outcome.succeeded,
      finalState host reg plugins s, ?_⟩
    rw [load_loop_eq, List.nil_append, failureEntries_eq_filterMap]
  · intro k path cause
    rfl
  · intro a b c e h
    simp only [attempts, List.cons.injEq, and_true] at h
    obtain ⟨h1, h2, h3⟩ := h
    refine ⟨Error.loaderError [fmt.Errorf (load.message 1 b e.Error)],
      finalState host reg [a, b, c] s, ?_, ?_⟩
    · rw [load_eq]
      simp [attempts, failureEntries, h1, h2, h3, Outcome.succeeded]
    · have e1 : "plugin loader found 1 error(s): \n" =
          "plugin loader found " ++ toString 1 ++ " error(s): \n" := by decide
      have e2 : "opening plugin 1 (" = "opening plugin " ++ toString 1 ++ " (" := by decide
      rw [loaderError_message_eq, e1, e2]
      simp [String.intercalate, String.intercalate.go, fmt.Errorf, Error.Error, load.message]

theorem load_failure_entry_index_witness :
    attempts sampleHost sampleRegister ["a.so", "bad.so", "c.so"] () =
      [.returned none, .returned (some (Error.foreign 1 "not a plugin")), .returned none] ∧
    ∃ aggregate s1, load sampleHost ["a.so", "bad.so", "c.so"] sampleRegister () =
        (.returned (2, some aggregate), s1) ∧
      aggregate.Error =
        "plugin loader found 1 error(s): \n" ++
          ("opening plugin 1 (" ++ "bad.so" ++ "): " ++ "not a plugin") :=
  ⟨rfl, (load_failure_entry_index sampleHost sampleRegister ()).2.2 "a.so" "bad.so" "c.so"
    (Error.foreign 1 "not a plugin") rfl⟩

/-- A panic with a non-nil value `r`, raised by the opener or by `Register`:
when `r` is an error value `e`, `open` returns `e` itself; when it is not an
error value, `open` returns the error `fmt.Errorf("%v", r)`, whose message is
the text of `r`. -/
theorem open_converts_fault {σ P : Type} (host : Host σ P) (pluginName : String)
    (reg : Register σ P) (s s1 : σ) (r : PanicValue) (hr : r ≠ PanicValue.nil)
    (hpanic : host.pluginOpener pluginName s = (.panicked r, s1) ∨
      ∃ p s0, host.pluginOpener pluginName s = (.returned (p, none), s0) ∧
        reg p s0 = (.panicked r, s1)) :
    (∀ e, r = PanicValue.error e →
      plugin.open host pluginName reg s = (.returned (some e), s1)) ∧
    ((∀ e, r ≠ PanicValue.error e) →
      ∃ text, r = PanicValue.value text ∧
        plugin.open host pluginName reg s = (.returned (some (fmt.Errorf text)), s1) ∧
        (fmt.Errorf text).Error = text) := by
  have hbody : open.body host pluginName reg s = ((none, some r), s1) := by
    rcases hpanic with h | ⟨p, s0, h, h0⟩
    · simp [open.body, h]
    · simp [open.body, h, h0]
  refine ⟨?_, ?_⟩
  · intro e he
    subst he
    simp [plugin.open, hbody, open.deferred]
  · intro hne
    cases r with
    | nil => exact absurd rfl hr
    | error e => exact absurd rfl (hne e)
    | value text => exact ⟨text, rfl, by simp [plugin.open, hbody, open.deferred], rfl⟩

theorem open_converts_fault_sample :
    plugin.open sampleHost "fault.so" sampleRegister () =
      (.returned (some (Error.foreign 2 "invalid memory address")), ()) ∧
    ∃ text, PanicValue.value "boom" = PanicValue.value text ∧
      plugin.open sampleHost "crash.so" sampleRegister () =
        (.returned (some (fmt.Errorf text)), ()) ∧
      (fmt.Errorf text).Error = text :=
  ⟨(open_converts_fault sampleHost "fault.so" sampleRegister () ()
      (PanicValue.error (Error.foreign 2 "invalid memory address"))
      (fun h => PanicValue.noConfusion h) (Or.inl rfl)).1 _ rfl,
   (open_converts_fault sampleHost "crash.so" sampleRegister () () (PanicValue.value "boom")
      (fun h => PanicValue.noConfusion h) (Or.inl rfl)).2
      (fun _ h => PanicValue.noConfusion h)⟩

/-- C10, at the input that breaks it. A panic with the nil value is stopped
by the deferred closure of `open` and its value is not an error value, yet
`open` does not return a synthesized error: `recover()` hands back nil, the
conversion is skipped and `open` returns the nil error, for a panic of the
opener as for a panic of `Register`. -/
theorem open_nil_fault_not_converted :
    open.deferred none (some PanicValue.nil) = .returned none ∧
    (∀ e, PanicValue.nil ≠ PanicValue.error e) ∧
    (∀ text, plugin.open sampleHost "nilpanic.so" sampleRegister () ≠
      (.returned (some (fmt.Errorf text)), ())) ∧
    (∀ text, plugin.open sampleHost "a.so" (fun _ s => (.panicked PanicValue.nil, s)) () ≠
      (.returned (some (fmt.Errorf text)), ())) := by
  refine ⟨rfl, fun e h => PanicValue.noConfusion h, ?_, ?_⟩
  · intro text h
    have h1 : plugin.open sampleHost "nilpanic.so" sampleRegister () = (.returned none, ()) :=
      rfl
    rw [h1] at h
    simp at h
  · intro text h
    have h1 : plugin.open sampleHost "a.so" (fun _ s => (.panicked PanicValue.nil, s)) () =
        (.returned none, ()) := rfl
    rw [h1] at h
    simp at h

end plugin

/-! ## The registry calls of a batch -/

namespace plugin

theorem registerCalls_append {P : Type} (a b : List (Event P)) :
    registerCalls (a ++ b) = registerCalls a ++ registerCalls b := by
  induction a with
  | nil => rfl
  | cons e rest ih => cases e <;> simp [registerCalls, ih]

theorem registerCalls_open {σ P : Type} (host : Host σ P) (pluginName : String) (s : σ) :
    registerCalls (open.events host pluginName s) =
      (openedHandle (host.pluginOpener pluginName s).1).toList := by
  unfold open.events
  rcases h : host.pluginOpener pluginName s with ⟨(⟨p, _ | e⟩ | r), s1⟩ <;>
    simp [registerCalls, openedHandle]

theorem registerCalls_load {σ P : Type} (host : Host σ P) (reg : Register σ P)
    (plugins : List String) :
    ∀ s : σ, registerCalls (load.events host reg plugins s) =
      (openerOutcomes host reg plugins s).filterMap openedHandle := by
  induction plugins with
  | nil => intro s; rfl
  | cons pluginName rest ih =>
    intro s
    simp only [load.events, registerCalls_append, registerCalls_open, ih, openerOutcomes,
      List.filterMap_cons]
    cases openedHandle (host.pluginOpener pluginName s).1 <;> simp

theorem openerOutcomes_length {σ P : Type} (host : Host σ P) (reg : Register σ P)
    (plugins : List String) :
    ∀ s : σ, (openerOutcomes host reg plugins s).length = plugins.length := by
  induction plugins with
  | nil => intro s; rfl
  | cons pluginName rest ih => intro s; simp [openerOutcomes, ih]

theorem length_filterMap_openedHandle {P : Type} (os : List (Outcome (P × Option Error))) :
    (os.filterMap openedHandle).length = os.countP (fun o => (openedHandle o).isSome) := by
  induction os with
  | nil => rfl
  | cons o rest ih =>
    simp only [List.filterMap_cons, List.countP_cons]
    cases h : openedHandle o <;> simp [ih]

/-- C11. On the logging host, from an empty log, the `Register` calls of
`load` are exactly the handles of the candidates whose opener call returned a
handle and a nil error, in candidate order: one call for each of them, with
that handle, and none for a candidate whose opener call returned an error or
panicked. So the number of `Register` calls is the number of candidates the
opener opened without error. The same holds for every single `open`. -/
theorem register_called_once_per_opened {σ P : Type} (host : Host σ P)
    (plugins : List String) (reg : Register σ P) (s : σ) :
    registerCalls (load host.traced plugins reg.traced (s, [])).2.2 =
      (openerOutcomes host reg plugins s).filterMap openedHandle ∧
    (openerOutcomes host reg plugins s).length = plugins.length ∧
    (registerCalls (load host.traced plugins reg.traced (s, [])).2.2).length =
      (openerOutcomes host reg plugins s).countP (fun o => (openedHandle o).isSome) ∧
    (∀ (pluginName : String) (t : σ) (log : List (Event P)),
      registerCalls (plugin.open host.traced pluginName reg.traced (t, log)).2.2 =
        registerCalls log ++ (openedHandle (host.pluginOpener pluginName t).1).toList) := by
  have h : registerCalls (load host.traced plugins reg.traced (s, [])).2.2 =
      (openerOutcomes host reg plugins s).filterMap openedHandle := by
    rw [load_traced]
    simp [registerCalls_load]
  refine ⟨h, openerOutcomes_length host reg plugins s, ?_, ?_⟩
  · rw [h, length_filterMap_openedHandle]
  · intro pluginName t log
    rw [open_traced]
    simp [registerCalls_append, registerCalls_open]

/-- C13. When the directory listing succeeds, `scan` with the empty pattern
returns every entry that is not a directory, as `folder ++ name` and in
listing order, and nothing else. -/
theorem scan_empty_pattern {σ P : Type} (host : Host σ P) (folder : String)
    (s s1 : σ) (files : List FileInfo)
    (hread : host.ReadDir folder s = ((files, none), s1)) :
    scan host folder "" s =
      (((files.filter (fun file => !file.IsDir)).map (fun file => folder ++ file.Name),
        none), s1) := by
  have h : (fun file : FileInfo =>
      decide (file.IsDir = false ∧ ("" : String).data <:+: file.Name.data)) =
      (fun file => !file.IsDir) := by
    funext file
    cases file.IsDir <;> simp
  simp only [scan, hread, scan_loop_eq, List.nil_append, h]

theorem scan_empty_pattern_witness :
    sampleHost.ReadDir "plugins/" () =
      (([⟨"a_plugin.so", false⟩, ⟨"b_other.txt", false⟩, ⟨"sub", true⟩], none), ()) ∧
    scan sampleHost "plugins/" "" () =
      ((["plugins/a_plugin.so", "plugins/b_other.txt"], none), ()) :=
  ⟨rfl, scan_empty_pattern sampleHost "plugins/" () ()
    [⟨"a_plugin.so", false⟩, ⟨"b_other.txt", false⟩, ⟨"sub", true⟩] rfl⟩

/-- C14. When `scan` succeeds with the candidates `plugins`, `Load(cfg, reg)`
returns what `load(plugins, reg)` returns, run in the world `scan` left: the
same count, the same error, over the same candidates in the same order. -/
theorem Load_eq_load_of_scan {σ P : Type} (host : Host σ P) (cfg : PluginDefinition)
    (reg : Register σ P) (s s1 : σ) (plugins : List String)
    (hscan : scan host cfg.GetFolder cfg.GetPattern s = ((plugins, none), s1)) :
    Load host cfg reg s = load host plugins reg s1 := by
  simp [Load, hscan]

theorem Load_eq_load_of_scan_witness :
    scan sampleHost "plugins/" "plugin" () = ((["plugins/a_plugin.so"], none), ()) ∧
    Load sampleHost ⟨"plugins/", "plugin"⟩ sampleRegister () =
      load sampleHost ["plugins/a_plugin.so"] sampleRegister () :=
  ⟨rfl, Load_eq_load_of_scan sampleHost ⟨"plugins/", "plugin"⟩ sampleRegister () ()
    ["plugins/a_plugin.so"] rfl⟩

/-- C15. When the listing of the folder fails with `err`, `scan` returns
`err` and the empty slice, whatever entries the failed listing handed
back. -/
theorem scan_unreadable_folder {σ P : Type} (host : Host σ P) (folder pattern : String)
    (s s1 : σ) (files : List FileInfo) (err : Error)
    (hread : host.ReadDir folder s = ((files, some err), s1)) :
    scan host folder pattern s = (([], some err), s1) := by
  simp [scan, hread]

theorem scan_unreadable_folder_witness :
    sampleHost.ReadDir "missing/" () =
      (([], some (Error.foreign 0 "open: no such file or directory")), ()) ∧
    scan sampleHost "missing/" "plugin" () =
      (([], some (Error.foreign 0 "open: no such file or directory")), ()) :=
  ⟨rfl, scan_unreadable_folder sampleHost "missing/" "plugin" () () []
    (Error.foreign 0 "open: no such file or directory") rfl⟩

end plugin

/-! ## The empty batch -/

namespace plugin

/-- C17. An empty batch is not an error. For every host, registry and
world state, `load` on the empty candidate list returns `(0, nil)`, and on the
logging host it leaves the log empty (no opener call, no registry call). So
whenever the listing of the configured folder succeeds and no entry that is
not a directory has the pattern in its name, `scan` returns no candidate and
`Load` returns `(0, nil)`, again with an empty log. -/
theorem load_empty_batch {σ P : Type} (host : Host σ P) (reg : Register σ P) (s : σ) :
    load host [] reg s = (.returned (0, none), s) ∧
    load host.traced [] reg.traced (s, []) = (.returned (0, none), (s, [])) ∧
    (∀ (cfg : PluginDefinition) (files : List FileInfo) (s1 : σ),
      host.ReadDir cfg.GetFolder s = ((files, none), s1) →
      (∀ file ∈ files, file.IsDir = false → ¬ cfg.GetPattern.data <:+: file.Name.data) →
      scan host cfg.GetFolder cfg.GetPattern s = (([], none), s1) ∧
      Load host cfg reg s = (.returned (0, none), s1) ∧
      Load host.traced cfg reg.traced (s, []) = (.returned (0, none), (s1, []))) := by
  refine ⟨rfl, rfl, ?_⟩
  intro cfg files s1 hread hnone
  have hfilter : files.filter (fun file =>
      decide (file.IsDir = false ∧ cfg.GetPattern.data <:+: file.Name.data)) = [] := by
    rw [List.filter_eq_nil_iff]
    intro file hmem
    simp only [decide_eq_true_eq, not_and]
    exact hnone file hmem
  have h1 : scan host cfg.GetFolder cfg.GetPattern s = (([], none), s1) := by
    simp only [scan, hread, scan_loop_eq, hfilter, List.map_nil, List.append_nil]
  have h2 : scan host.traced cfg.GetFolder cfg.GetPattern (s, ([] : List (Event P))) =
      (([], none), (s1, [])) := by
    simp only [scan, Host.traced, hread, scan_loop_eq, hfilter, List.map_nil, List.append_nil]
  refine ⟨h1, ?_, ?_⟩
  · simp only [Load, h1]; rfl
  · simp only [Load, h2]; rfl

theorem load_empty_batch_witness :
    load twoLineHost [] sampleRegister () = (.returned (0, none), ()) ∧
    sampleHost.ReadDir "plugins/" () =
      (([⟨"a_plugin.so", false⟩, ⟨"b_other.txt", false⟩, ⟨"sub", true⟩], none), ()) ∧
    Load sampleHost ⟨"plugins/", "sub"⟩ sampleRegister () = (.returned (0, none), ()) :=
  ⟨(load_empty_batch twoLineHost sampleRegister ()).1, rfl,
    ((load_empty_batch sampleHost sampleRegister ()).2.2 ⟨"plugins/", "sub"⟩
      [⟨"a_plugin.so", false⟩, ⟨"b_other.txt", false⟩, ⟨"sub", true⟩] () rfl
      (by decide)).2.1⟩

end plugin

/-! ## Decimal numerals -/

namespace plugin

theorem digitChar_ne_newline (m : Nat) (h : m < 10) : Nat.digitChar m ≠ '\n' := by
  interval_cases m <;> decide

theorem toDigitsCore_oneLine (fuel : Nat) :
    ∀ (n : Nat) (ds : List Char), '\n' ∉ ds → '\n' ∉ Nat.toDigitsCore 10 fuel n ds := by
  induction fuel with
  | zero => intro n ds h; simpa [Nat.toDigitsCore] using h
  | succ fuel ih =>
    intro n ds h
    have hd : '\n' ∉ Nat.digitChar (n % 10) :: ds := by
      simp only [List.mem_cons, not_or]
      exact ⟨fun hc => digitChar_ne_newline _ (Nat.mod_lt _ (by decide)) hc.symm, h⟩
    simp only [Nat.toDigitsCore]
    split
    · exact hd
    · exact ih _ _ hd

theorem toString_data (n : Nat) : (toString n).data = Nat.toDigits 10 n := rfl

theorem toString_oneLine (n : Nat) : oneLine (toString n) := by
  unfold oneLine
  rw [toString_data]
  exact toDigitsCore_oneLine _ _ _ (by simp)

theorem digitChar_isDigit (m : Nat) (h : m < 10) :
    (Nat.digitChar m).isDigit = true ∧ (Nat.digitChar m).toNat - 48 = m := by
  interval_cases m <;> decide

theorem parseDecimal_toDigitsCore (fuel : Nat) :
    ∀ (n : Nat) (ds rest : List Char), n < fuel →
      parseDecimal (Nat.toDigitsCore 10 fuel n ds ++ rest) 0 = parseDecimal (ds ++ rest) n := by
  induction fuel with
  | zero => intro n ds rest h; omega
  | succ fuel ih =>
    intro n ds rest h
    obtain ⟨h1, h2⟩ := digitChar_isDigit (n % 10) (Nat.mod_lt _ (by decide))
    simp only [Nat.toDigitsCore]
    split
    · next h0 =>
      have hn : n % 10 = n := by omega
      simp only [List.cons_append, parseDecimal, h1, h2, if_true]
      simp [hn]
    · next h0 =>
      rw [ih (n / 10) _ rest (by omega)]
      have hn : n / 10 * 10 + n % 10 = n := by omega
      simp only [List.cons_append, parseDecimal, h1, h2, if_true, hn]
      rfl

/-- Reading back the numeral `toString n` that stands before a character that
is not a digit gives `n`. -/
theorem parseDecimal_toString (n : Nat) (c : Char) (rest : List Char)
    (hc : c.isDigit = false) :
    parseDecimal ((toString n).data ++ c :: rest) 0 = n := by
  rw [toString_data]
  unfold Nat.toDigits
  rw [parseDecimal_toDigitsCore (n + 1) n [] (c :: rest) (by omega)]
  simp [parseDecimal, hc]

end plugin

/-! ## The count in the message -/

namespace plugin

theorem statedCount_message (n : Nat) (body : String) :
    statedCount ("plugin loader found " ++ toString n ++ " error(s): \n" ++ body) = n := by
  have hrest : (" error(s): \n" : String).data = ' ' :: ("error(s): \n" : String).data := rfl
  have hlen : ("plugin loader found " : String).length =
      ("plugin loader found " : String).data.length := rfl
  unfold statedCount
  rw [String.data_append, String.data_append, String.data_append, List.append_assoc,
    List.append_assoc, hlen, List.drop_left, hrest, List.cons_append]
  exact parseDecimal_toString n ' ' _ (by decide)

/-- What a non-nil error returned by `load` is: the aggregate of the failure
descriptors of the batch, which are as many as the candidates not counted. -/
theorem load_error_eq {σ P : Type} (host : Host σ P) (plugins : List String)
    (reg : Register σ P) (s s1 : σ) (loadedCount : Nat) (err : Error)
    (hload : load host plugins reg s = (.returned (loadedCount, some err), s1)) :
    err = Error.loaderError (failureEntries host reg plugins 0 s) ∧
    0 < (failureEntries host reg plugins 0 s).length ∧
    loadedCount + (failureEntries host reg plugins 0 s).length = plugins.length := by
  have h1 := attempts_count host reg plugins s
  have h2 := failureEntries_length host reg plugins 0 s
  rw [load_eq] at hload
  by_cases hpos : (failureEntries host reg plugins 0 s).length > 0
  · simp only [hpos, if_true, Prod.mk.injEq, Outcome.returned.injEq, Option.some.injEq] at hload
    obtain ⟨⟨hcount, herr⟩, _⟩ := hload
    exact ⟨herr.symm, hpos, by omega⟩
  · simp [hpos] at hload

/-- C16. When `load` returns a non-nil error, the count that the message of
that error states (the numeral after `plugin loader found `) is
`len(candidates) - loadedCount`; the returned count plus the stated count is
the number of candidates. -/
theorem load_error_states_uncounted {σ P : Type} (host : Host σ P) (plugins : List String)
    (reg : Register σ P) (s s1 : σ) (loadedCount : Nat) (err : Error)
    (hload : load host plugins reg s = (.returned (loadedCount, some err), s1)) :
    statedCount err.Error = plugins.length - loadedCount ∧
    loadedCount + statedCount err.Error = plugins.length ∧
    ∃ body, err.Error =
      "plugin loader found " ++ toString (plugins.length - loadedCount) ++ " error(s): \n" ++
        body := by
  obtain ⟨herr, _, hsum⟩ := load_error_eq host plugins reg s s1 loadedCount err hload
  have hn : (failureEntries host reg plugins 0 s).length = plugins.length - loadedCount := by
    omega
  have hmsg := loaderError_message_eq (failureEntries host reg plugins 0 s)
  rw [← herr, hn] at hmsg
  have hcount : statedCount err.Error = plugins.length - loadedCount := by
    rw [hmsg]; exact statedCount_message _ _
  exact ⟨hcount, by omega, _, hmsg⟩

theorem load_error_states_uncounted_witness :
    load sampleHost ["a.so", "bad.so", "c.so"] sampleRegister () =
      (.returned (2, some (Error.loaderError
        [Error.errorString "opening plugin 1 (bad.so): not a plugin"])), ()) ∧
    statedCount (Error.loaderError
      [Error.errorString "opening plugin 1 (bad.so): not a plugin"]).Error = 3 - 2 :=
  ⟨rfl, (load_error_states_uncounted sampleHost ["a.so", "bad.so", "c.so"] sampleRegister
    () () 2 _ rfl).1⟩

end plugin

/-! ## The lines of the message -/

namespace plugin

theorem oneLine_append (a b : String) : oneLine (a ++ b) ↔ oneLine a ∧ oneLine b := by
  simp [oneLine, String.data_append, not_or]

theorem splitLines_ne_nil (l : List Char) : splitLines l ≠ [] := by
  cases l with
  | nil => simp [splitLines]
  | cons c cs =>
    simp only [splitLines]
    split
    · simp
    · split <;> simp

theorem splitLines_of_not_mem (a : List Char) (h : '\n' ∉ a) : splitLines a = [a] := by
  induction a with
  | nil => rfl
  | cons c cs ih =>
    simp only [List.mem_cons, not_or] at h
    have hc : c ≠ '\n' := fun hc => h.1 hc.symm
    simp [splitLines, hc, ih h.2]

theorem splitLines_append_newline (a b : List Char) (h : '\n' ∉ a) :
    splitLines (a ++ '\n' :: b) = a :: splitLines b := by
  induction a with
  | nil => simp [splitLines]
  | cons c cs ih =>
    simp only [List.mem_cons, not_or] at h
    have hc : c ≠ '\n' := fun hc => h.1 hc.symm
    simp [splitLines, hc, ih h.2]

theorem intercalate_go_data (ds : List String) :
    ∀ acc : String, (String.intercalate.go acc "\n" ds).data =
      acc.data ++ ds.foldr (fun d r => '\n' :: (d.data ++ r)) [] := by
  induction ds with
  | nil => intro acc; simp [String.intercalate.go]
  | cons d rest ih =>
    intro acc
    have hnl : ("\n" : String).data = ['\n'] := rfl
    simp [String.intercalate.go, ih, String.data_append, hnl]

theorem splitLines_foldr (ds : List String) (hds : ∀ d ∈ ds, oneLine d) :
    ∀ a : List Char, '\n' ∉ a →
      splitLines (a ++ ds.foldr (fun d r => '\n' :: (d.data ++ r)) []) =
        a :: ds.map String.data := by
  induction ds with
  | nil => intro a ha; simpa using splitLines_of_not_mem a ha
  | cons d rest ih =>
    intro a ha
    have hd : '\n' ∉ d.data := hds d (List.mem_cons_self _ _)
    have hrest : ∀ x ∈ rest, oneLine x := fun x hx => hds x (List.mem_cons_of_mem _ hx)
    simp only [List.foldr_cons, List.map_cons]
    rw [splitLines_append_newline a _ ha, ih hrest d.data hd]

/-- The lines of a text that is a one-line header, a newline, and one-line
texts joined by newlines: the header, then the texts. -/
theorem lines_header_join (header : String) (d : String) (ds : List String)
    (hheader : oneLine header) (hds : ∀ x ∈ d :: ds, oneLine x) :
    lines (header ++ "\n" ++ "\n".intercalate (d :: ds)) = header :: d :: ds := by
  have hnl : ("\n" : String).data = ['\n'] := rfl
  have hd : '\n' ∉ d.data := hds d (List.mem_cons_self _ _)
  have hrest : ∀ x ∈ ds, oneLine x := fun x hx => hds x (List.mem_cons_of_mem _ hx)
  have hmk : ∀ l : List String, l.map (String.mk ∘ String.data) = l := by
    intro l
    induction l with
    | nil => rfl
    | cons x xs ih => simp [ih]
  unfold lines
  simp only [String.data_append, hnl, String.intercalate, intercalate_go_data,
    List.append_assoc, List.singleton_append]
  rw [splitLines_append_newline _ _ hheader, splitLines_foldr ds hrest d.data hd]
  simpa using hmk ds

theorem message_oneLine (k : Nat) (pluginName msg : String) (hp : oneLine pluginName)
    (hm : oneLine msg) : oneLine (load.message k pluginName msg) := by
  unfold load.message
  simp only [oneLine_append]
  have h1 : oneLine "opening plugin " := by unfold oneLine; decide
  have h2 : oneLine " (" := by unfold oneLine; decide
  have h3 : oneLine "): " := by unfold oneLine; decide
  exact ⟨⟨⟨⟨⟨h1, toString_oneLine k⟩, h2⟩, hp⟩, h3⟩, hm⟩

theorem failureEntries_oneLine {σ P : Type} (host : Host σ P) (reg : Register σ P)
    (plugins : List String) :
    ∀ (k : Nat) (s : σ),
      (∀ x ∈ List.zip plugins (attempts host reg plugins s), ∀ e,
        x.2 = .returned (some e) → oneLine x.1 ∧ oneLine e.Error) →
      ∀ d ∈ (failureEntries host reg plugins k s).map Error.Error, oneLine d := by
  induction plugins with
  | nil => intro k s _ d hd; simp [failureEntries] at hd
  | cons pluginName rest ih =>
    intro k s hclean d hd
    have hrest := ih (k + 1) (plugin.open host pluginName reg s).2
      (fun x hx => hclean x (by
        simp only [attempts, List.zip_cons_cons]
        exact List.mem_cons_of_mem _ hx))
    obtain ⟨e, he⟩ := plugin.open_returns host pluginName reg s
    rcases e with _ | e
    · simp only [failureEntries, he] at hd
      exact hrest d hd
    · simp only [failureEntries, he, List.map_cons, List.mem_cons] at hd
      rcases hd with hd | hd
      · subst hd
        have hhead := hclean (pluginName, (plugin.open host pluginName reg s).1) (by
          simp only [attempts, List.zip_cons_cons]
          exact List.mem_cons_self _ _) e he
        exact message_oneLine k pluginName e.Error hhead.1 hhead.2
      · exact hrest d hd

end plugin

namespace plugin

/-- C12, an input that breaks it. A batch of one candidate whose open fails
with a cause of two lines: there is one failure, and after the header line
the message of the returned error has two lines, not one. -/
theorem load_message_lines_counterexample :
    load twoLineHost ["x.so"] sampleRegister () =
      (.returned (0, some (Error.loaderError
        (failureEntries twoLineHost sampleRegister ["x.so"] 0 ()))), ()) ∧
    (failureEntries twoLineHost sampleRegister ["x.so"] 0 ()).length = 1 ∧
    lines (Error.loaderError (failureEntries twoLineHost sampleRegister ["x.so"] 0 ())).Error =
      ["plugin loader found 1 error(s): ", "opening plugin 0 (x.so): cannot open",
        "no such file"] ∧
    ((lines (Error.loaderError
      (failureEntries twoLineHost sampleRegister ["x.so"] 0 ())).Error).drop 1).length ≠ 1 :=
  ⟨rfl, rfl, by rfl, by decide⟩

/-- C12, amended. For a batch with at least one failure in which no failing
candidate has a newline character in its path or in its cause message, `load`
returns the aggregate of the failures, and the lines of its message are the
header line `plugin loader found n error(s): ` with the number `n` of
failures, then exactly `n` lines, the `i`-th being the diagnostic of the
`i`-th failure. Candidates that open without error are under no condition. -/
theorem load_message_one_line_per_failure {σ P : Type} (host : Host σ P)
    (plugins : List String) (reg : Register σ P) (s : σ)
    (hfail : 0 < (attempts host reg plugins s).countP Outcome.failed)
    (hclean : ∀ x ∈ List.zip plugins (attempts host reg plugins s), ∀ e,
      x.2 = .returned (some e) → oneLine x.1 ∧ oneLine e.Error) :
    ∃ loadedCount failures s1,
      load.loop host reg plugins 0 [] 0 s = (.returned (failures, loadedCount), s1) ∧
      load host plugins reg s =
        (.returned (loadedCount, some (Error.loaderError failures)), s1) ∧
      failures.length = (attempts host reg plugins s).countP Outcome.failed ∧
      lines (Error.loaderError failures).Error =
        ("plugin loader found " ++ toString failures.length ++ " error(s): ") ::
          failures.map Error.Error ∧
      (lines (Error.loaderError failures).Error).length = failures.length + 1 := by
  have hlen := failureEntries_length host reg plugins 0 s
  have hpos : (failureEntries host reg plugins 0 s).length > 0 := by omega
  have hone := failureEntries_oneLine host reg plugins 0 s hclean
  have hlines : lines (Error.loaderError (failureEntries host reg plugins 0 s)).Error =
      ("plugin loader found " ++ toString (failureEntries host reg plugins 0 s).length ++
        " error(s): ") :: (failureEntries host reg plugins 0 s).map Error.Error := by
    rw [loaderError_message_eq]
    have hsplit : (" error(s): \n" : String) = " error(s): " ++ "\n" := by decide
    have h1 : oneLine "plugin loader found " := by decide
    have h2 : oneLine " error(s): " := by decide
    have hheader : oneLine ("plugin loader found " ++
        toString (failureEntries host reg plugins 0 s).length ++ " error(s): ") := by
      simp only [oneLine_append]
      exact ⟨⟨h1, toString_oneLine _⟩, h2⟩
    cases hfe : failureEntries host reg plugins 0 s with
    | nil => simp [hfe] at hpos
    | cons d ds =>
      rw [hfe] at hone hheader
      rw [hsplit, ← String.append_assoc, List.map_cons]
      exact lines_header_join _ _ _ hheader (by simpa using hone)
  refine ⟨(attempts host reg plugins s).countP Outcome.succeeded,
    failureEntries host reg plugins 0 s, finalState host reg plugins s, ?_, ?_, hlen, hlines, ?_⟩
  · simpa using load_loop_eq host reg plugins 0 [] 0 s
  · rw [load_eq]; simp [hpos]
  · rw [hlines]; simp

theorem load_message_one_line_per_failure_witness :
    0 < (attempts sampleHost sampleRegister ["a\nb.so", "bad.so"] ()).countP Outcome.failed ∧
    ¬ oneLine "a\nb.so" ∧
    ∃ loadedCount failures s1,
      load sampleHost ["a\nb.so", "bad.so"] sampleRegister () =
        (.returned (loadedCount, some (Error.loaderError failures)), s1) ∧
      lines (Error.loaderError failures).Error =
        ("plugin loader found " ++ toString failures.length ++ " error(s): ") ::
          failures.map Error.Error ∧
      (lines (Error.loaderError failures).Error).length = failures.length + 1 := by
  have hattempts : attempts sampleHost sampleRegister ["a\nb.so", "bad.so"] () =
      [.returned none, .returned (some (Error.foreign 1 "not a plugin"))] := rfl
  obtain ⟨loadedCount, failures, s1, _, h2, _, h4, h5⟩ :=
    load_message_one_line_per_failure sampleHost ["a\nb.so", "bad.so"] sampleRegister ()
      (by decide)
      (by
        intro x hx e he
        rw [hattempts] at hx
        simp only [List.zip_cons_cons, List.zip_nil_right, List.mem_cons, List.mem_singleton,
          List.not_mem_nil, or_false] at hx
        rcases hx with hx | hx
        · rw [hx] at he; cases he
        · rw [hx] at he ⊢; cases he; exact ⟨by decide, by decide⟩)
  exact ⟨by decide, by decide, loadedCount, failures, s1, h2, h4, h5⟩

end plugin

/-! ## The condition of one line per failure is needed -/

namespace plugin

theorem splitLines_mem_oneLine (a : List Char) : ∀ l ∈ splitLines a, '\n' ∉ l := by
  induction a with
  | nil => intro l hl; simp [splitLines] at hl; simp [hl]
  | cons c cs ih =>
    intro l hl
    by_cases hc : c = '\n'
    · simp only [splitLines, hc, if_true, List.mem_cons] at hl
      rcases hl with hl | hl
      · simp [hl]
      · exact ih l hl
    · simp only [splitLines, hc, if_false] at hl
      cases hsplit : splitLines cs with
      | nil => exact absurd hsplit (splitLines_ne_nil cs)
      | cons line rest =>
        rw [hsplit] at hl ih
        simp only [List.mem_cons] at hl
        rcases hl with hl | hl
        · subst hl
          simp only [List.mem_cons, not_or]
          exact ⟨fun h => hc h.symm, ih line (List.mem_cons_self _ _)⟩
        · exact ih l (List.mem_cons_of_mem _ hl)

theorem lines_mem_oneLine (msg : String) : ∀ line ∈ lines msg, oneLine line := by
  intro line hline
  simp only [lines, List.mem_map] at hline
  obtain ⟨l, hl, rfl⟩ := hline
  exact splitLines_mem_oneLine msg.data l hl

theorem oneLine_of_message (k : Nat) (pluginName msg : String)
    (h : oneLine (load.message k pluginName msg)) : oneLine pluginName ∧ oneLine msg := by
  unfold load.message at h
  simp only [oneLine_append] at h
  exact ⟨h.1.1.2, h.2⟩

theorem failing_clean_of_oneLine {σ P : Type} (host : Host σ P) (reg : Register σ P)
    (plugins : List String) :
    ∀ (k : Nat) (s : σ),
      (∀ d ∈ (failureEntries host reg plugins k s).map Error.Error, oneLine d) →
      ∀ x ∈ List.zip plugins (attempts host reg plugins s), ∀ e,
        x.2 = .returned (some e) → oneLine x.1 ∧ oneLine e.Error := by
  induction plugins with
  | nil => intro k s _ x hx; simp [attempts] at hx
  | cons pluginName rest ih =>
    intro k s hone x hx e he
    simp only [attempts, List.zip_cons_cons, List.mem_cons] at hx
    obtain ⟨e0, he0⟩ := plugin.open_returns host pluginName reg s
    rcases hx with hx | hx
    · subst hx
      simp only at he
      rw [he] at he0
      have hmem : load.message k pluginName e.Error ∈
          (failureEntries host reg (pluginName :: rest) k s).map Error.Error := by
        simp [failureEntries, he, fmt.Errorf, Error.Error]
      exact oneLine_of_message k pluginName e.Error (hone _ hmem)
    · refine ih (k + 1) (plugin.open host pluginName reg s).2 ?_ x hx e he
      intro d hd
      apply hone d
      rcases e0 with _ | e0 <;> simp only [failureEntries, he0, List.map_cons, List.mem_cons]
      · exact hd
      · exact Or.inr hd

/-- When the lines of the message of the aggregate are the header and then
the diagnostics, one line each, no failing candidate has a newline character
in its path or in its cause message. -/
theorem one_line_per_failure_only_if {σ P : Type} (host : Host σ P)
    (plugins : List String) (reg : Register σ P) (s : σ) (header : String)
    (hlines : lines (Error.loaderError (failureEntries host reg plugins 0 s)).Error =
      header :: (failureEntries host reg plugins 0 s).map Error.Error) :
    ∀ x ∈ List.zip plugins (attempts host reg plugins s), ∀ e,
      x.2 = .returned (some e) → oneLine x.1 ∧ oneLine e.Error := by
  apply failing_clean_of_oneLine host reg plugins 0 s
  intro d hd
  apply lines_mem_oneLine (Error.loaderError (failureEntries host reg plugins 0 s)).Error
  rw [hlines]
  exact List.mem_cons_of_mem _ hd

end plugin
